import Mathlib

/-!
Verification development for the glem conversational retrieval agent.
Shallow embedding of `src/core/tools.py`, `src/core/chat_engine.py`
and `src/utils/search_utils.py`, together with theorems settling the
frozen specification claims.

Strings are modelled as Lean `String` (a packed `List Char`); Python
`str.lower` / `str.strip` are modelled character-wise, which agrees
with CPython on the ASCII data this program manipulates.  Python
dictionaries backing JSON records become structures with `Option`
fields (`none` = key absent / `None`), and Python truthiness of an
optional string is `pyTruthy` below.  Nondeterministic inputs
(`secrets.token_hex`, `datetime.now`) are threaded as explicit
parameters; the append-only action-log file and the read-only orders
collection are threaded as an explicit `KBState`.  The FAISS vector
backend (out of scope, external collaborator) is an abstract function
parameter, universally quantified in every theorem that touches it.
-/

namespace Glem

/-- Python whitespace characters stripped by `str.strip()` (ASCII range). -/
def wsChar (c : Char) : Bool :=
  c = ' ' || c = '\t' || c = '\n' || c = '\x0d' || c = '\x0b' || c = '\x0c'

/-- Strip leading and trailing whitespace from a character list (`str.strip()`). -/
def stripChars (cs : List Char) : List Char :=
  ((cs.dropWhile wsChar).reverse.dropWhile wsChar).reverse

/-- Character-wise lowering (`str.lower()` on the ASCII subset). -/
def lowerChars (cs : List Char) : List Char :=
  cs.map Char.toLower

/-- Build a `String` back from a character list. -/
def strOf (cs : List Char) : String :=
  String.mk cs

/-- `search_utils.normalize_query`: `(query or "").lower().strip()`. -/
def normalize_query (q : String) : String :=
  strOf (stripChars (lowerChars q.toList))

/-- `str.strip()` on a whole string (used on tool names). -/
def stripStr (s : String) : String :=
  strOf (stripChars s.toList)

/-- Python truthiness of an optional string (`None` and `""` are falsy). -/
def pyTruthy : Option String → Bool
  | none => false
  | some s => s ≠ ""

/-- Python `a or b` for optional strings: keep `a` when truthy, else `b`. -/
def pyOrOpt (a b : Option String) : Option String :=
  match a with
  | none => b
  | some s => if s = "" then b else some s

/-- Python `a or b` where `b` is a plain string default. -/
def pyOrStr (a : Option String) (b : String) : String :=
  match a with
  | none => b
  | some s => if s = "" then b else s

/-- Regex `\w` on lowered ASCII text: letters, digits and underscore. -/
def isWordChar (c : Char) : Bool :=
  c.isAlphanum || c = '_'

/-- Left word-boundary test: position 0 (`none`) or a non-word char before. -/
def boundaryPrev : Option Char → Bool
  | none => true
  | some p => !isWordChar p

/-- Right word-boundary test: end of text or a non-word char after. -/
def boundaryNext : List Char → Bool
  | [] => true
  | r :: _ => !isWordChar r

/-- One attempt of the regex `\b<letter>\d{4}\b` at the current position,
    given the previous character (for the left boundary). -/
def matchIdHere (letter : Char) (prev : Option Char) : List Char → Option (List Char)
  | c :: d1 :: d2 :: d3 :: d4 :: rest =>
    if boundaryPrev prev && c == letter && d1.isDigit && d2.isDigit
        && d3.isDigit && d4.isDigit && boundaryNext rest then
      some [c, d1, d2, d3, d4]
    else
      none
  | _ => none

/-- `re.search` for `\b<letter>\d{4}\b`: leftmost match wins. -/
def scanId (letter : Char) (prev : Option Char) : List Char → Option (List Char)
  | [] => none
  | c :: rest =>
    match matchIdHere letter prev (c :: rest) with
    | some m => some m
    | none => scanId letter (some c) rest

/-- Shared body of `_extract_order_id` / `_extract_product_id` /
    `_extract_customer_id` in `src/core/tools.py`: search the lowered text
    for `\b<letter>\d{4}\b` and return the match uppercased. -/
def extractId (letter : Char) (text : String) : Option String :=
  (scanId letter none (lowerChars text.toList)).map
    (fun m => strOf (m.map Char.toUpper))

/-- `tools._extract_order_id` on a present string (the `None` guard is the
    `Option` wrapper at call sites; `extractId` returns `none` on `""`). -/
def _extract_order_id (text : String) : Option String :=
  extractId 'o' text

/-- `tools._extract_product_id`. -/
def _extract_product_id (text : String) : Option String :=
  extractId 'p' text

/-- `tools._extract_customer_id`. -/
def _extract_customer_id (text : String) : Option String :=
  extractId 'c' text

/-- Boolean substring test (`needle in haystack` in Python), over char lists. -/
def hasSubList (needle : List Char) : List Char → Bool
  | [] => needle.isEmpty
  | c :: rest => needle.isPrefixOf (c :: rest) || hasSubList needle rest

/-- Python `needle in haystack` on strings. -/
def strContains (hay needle : String) : Bool :=
  hasSubList needle.toList hay.toList

/-- `re.fullmatch(r"<letter>\d{4}", s)`: a bare id token. -/
def isIdToken (letter : Char) (s : String) : Bool :=
  match s.toList with
  | [c, d1, d2, d3, d4] =>
    c == letter && d1.isDigit && d2.isDigit && d3.isDigit && d4.isDigit
  | _ => false

/-- `tools._clamp_k` on an optional integer argument (absent key or
    unconvertible value falls back to the default 5). -/
def clampK (v : Option Int) : Int :=
  match v with
  | none => 5
  | some k => max 1 (min 20 k)

/-- Python `list[:n]` for a possibly negative `n` modelled as `Int`
    (only ever applied with `n ≥ 1` here, after `_clamp_k`). -/
def takeInt (n : Int) (l : List α) : List α :=
  l.take n.toNat

/-! ## Order records, the action log, and the knowledge-base state -/

/-- One line item of an order (`p.get("product_id")`). -/
structure LineItem where
  product_id : Option String
  deriving Repr, DecidableEq

/-- An order record from `order_database.json`.  `Option` fields model
    possibly-absent JSON keys (`dict.get`). -/
structure Order where
  order_id : Option String
  customer_id : Option String
  order_status : Option String
  products : List LineItem
  deriving Repr, DecidableEq

/-- One appended line of `action_log.jsonl` (`tools._log_action` payload). -/
structure ActionLogEntry where
  ts : String
  action : String
  customer_id : Option String
  order_id : String
  product_id : Option String
  result : String
  reason : String
  ticket_id : Option String
  deriving Repr, DecidableEq

/-- The mutable world the order tools touch: the orders collection read by
    `_find_order` and the append-only action log written by `_log_action`. -/
structure KBState where
  orders : List Order
  actionLog : List ActionLogEntry
  deriving Repr, DecidableEq

/-- The structured payload passed to `json.dumps` by `cancel_order` /
    `initiate_return` / `_confirmation_required` (`reason` key only
    present on some branches). -/
structure ActionResult where
  status : String
  message : String
  reason : Option String
  ticket_id : Option String
  deriving Repr, DecidableEq

/-- Result of a tool execution: either a structured action payload,
    a plain descriptive string, or retrieved order data (the code
    serializes all three to `str`; we keep the pre-serialization shape). -/
inductive ExecResult where
  | payload (r : ActionResult)
  | text (s : String)
  | ordersData (l : List Order)
  deriving Repr, DecidableEq

/-- Nondeterministic inputs of one action: `datetime.now` and
    `secrets.token_hex(3)`. -/
structure ActionEnv where
  ts : String
  ticketHex : String
  deriving Repr, DecidableEq

/-- A JSON-ish scalar, for the `confirm` flag (the code tests
    `args.get("confirm") is not True`, so only the boolean `True`
    object passes). -/
inductive PyVal where
  | bool (b : Bool)
  | int (n : Int)
  | str (s : String)
  deriving Repr, DecidableEq

/-- `tools.KnowledgeBaseTools._resolve_customer_id`:
    `customer_id or self.customer_id`. -/
def _resolve_customer_id (bound arg : Option String) : Option String :=
  pyOrOpt arg bound

/-- `tools.KnowledgeBaseTools._order_belongs_to_customer`. -/
def _order_belongs_to_customer (order : Order) (customer_id : Option String) : Bool :=
  match customer_id with
  | none => false
  | some c =>
    if c = "" then false
    else normalize_query (order.customer_id.getD "") == normalize_query c

/-- `tools.KnowledgeBaseTools._find_order`: first order whose
    `order_id` equals the argument. -/
def _find_order (orders : List Order) (order_id : String) : Option Order :=
  orders.find? (fun o => o.order_id == some order_id)

/-- `tools.KnowledgeBaseTools._log_action`: append one entry to the log. -/
def _log_action (st : KBState) (e : ActionLogEntry) : KBState :=
  { st with actionLog := st.actionLog ++ [e] }

/-- Status string used in rejection reasons:
    `order.get("order_status") or "Unknown"`. -/
def statusOrUnknown (s : Option String) : String :=
  match s with
  | none => "Unknown"
  | some v => if v = "" then "Unknown" else v

/-- `tools.KnowledgeBaseTools.cancel_order`, with the bound session
    customer, the nondeterministic environment and the world state made
    explicit.  Returns the (pre-serialization) result and the new state. -/
def cancel_order (bound : Option String) (env : ActionEnv) (st : KBState)
    (order_id : String) (customer_arg : Option String) : ExecResult × KBState :=
  let customer_id := _resolve_customer_id bound customer_arg
  match _find_order st.orders order_id with
  | none =>
    let message := "Order not found."
    (ExecResult.payload ⟨"rejected", message, none, none⟩,
      _log_action st ⟨env.ts, "cancel_order", customer_id, order_id, none,
        "rejected", message, none⟩)
  | some order =>
    if pyTruthy customer_id && !_order_belongs_to_customer order customer_id then
      let message := "Order does not belong to this customer."
      (ExecResult.payload ⟨"rejected", message, none, none⟩,
        _log_action st ⟨env.ts, "cancel_order", customer_id, order_id, none,
          "rejected", message, none⟩)
    else if !(order.order_status == some "Placed"
              || order.order_status == some "Shipped") then
      let status := statusOrUnknown order.order_status
      let reason :=
        "Order status is " ++ status ++ ", only Placed or Shipped can be cancelled."
      let message := "Order is not eligible for cancellation."
      (ExecResult.payload ⟨"rejected", message, some reason, none⟩,
        _log_action st ⟨env.ts, "cancel_order", customer_id, order_id, none,
          "rejected", reason, none⟩)
    else
      let ticket_id := "CAN-" ++ env.ticketHex
      let message := "Cancellation request submitted."
      (ExecResult.payload ⟨"approved", message, none, some ticket_id⟩,
        _log_action st ⟨env.ts, "cancel_order", customer_id, order_id, none,
          "approved", message, some ticket_id⟩)

/-- `tools.KnowledgeBaseTools.initiate_return`, same conventions as
    `cancel_order`. -/
def initiate_return (bound : Option String) (env : ActionEnv) (st : KBState)
    (order_id product_id : String) (customer_arg : Option String) :
    ExecResult × KBState :=
  let customer_id := _resolve_customer_id bound customer_arg
  match _find_order st.orders order_id with
  | none =>
    let message := "Order not found."
    (ExecResult.payload ⟨"rejected", message, none, none⟩,
      _log_action st ⟨env.ts, "initiate_return", customer_id, order_id,
        some product_id, "rejected", message, none⟩)
  | some order =>
    if pyTruthy customer_id && !_order_belongs_to_customer order customer_id then
      let message := "Order does not belong to this customer."
      (ExecResult.payload ⟨"rejected", message, none, none⟩,
        _log_action st ⟨env.ts, "initiate_return", customer_id, order_id,
          some product_id, "rejected", message, none⟩)
    else if !(order.order_status == some "Delivered") then
      let status := statusOrUnknown order.order_status
      let reason :=
        "Order status is " ++ status ++ ", only Delivered orders can be returned."
      let message := "Order is not eligible for return."
      (ExecResult.payload ⟨"rejected", message, some reason, none⟩,
        _log_action st ⟨env.ts, "initiate_return", customer_id, order_id,
          some product_id, "rejected", reason, none⟩)
    else if !(order.products.any (fun p => p.product_id == some product_id)) then
      let message := "Product not found in order."
      (ExecResult.payload ⟨"rejected", message, none, none⟩,
        _log_action st ⟨env.ts, "initiate_return", customer_id, order_id,
          some product_id, "rejected", message, none⟩)
    else
      let ticket_id := "RET-" ++ env.ticketHex
      let message := "Return request submitted."
      (ExecResult.payload ⟨"approved", message, none, some ticket_id⟩,
        _log_action st ⟨env.ts, "initiate_return", customer_id, order_id,
          some product_id, "approved", message, some ticket_id⟩)

/-! ## Guarded order search and the retrieve dispatcher -/

/-- `tools.GuardedOrderDatabaseTool._matches_current_customer` (via
    `_normalized_customer_id`): no bound customer matches everything;
    a falsy value matches nothing; otherwise compare normalized ids. -/
def matchesCurrentCustomer (bound : Option String) (value : Option String) : Bool :=
  match bound with
  | none => true
  | some b =>
    if b = "" then true
    else
      match value with
      | none => false
      | some v =>
        if v = "" then false else normalize_query v == normalize_query b

/-- `VectorIndex.search` behind `VectorSearchTool.search`: empty query
    returns nothing, otherwise defer to the abstract FAISS backend. -/
def vecSearch (vec : String → Int → List Order) (query : String) (k : Int) :
    List Order :=
  if query = "" then [] else vec query k

/-- `tools.GuardedOrderDatabaseTool.search`: customer-scoped order search
    over the index metadata `store`, with the dense-vector backend `vec`
    abstract. -/
def guardedOrdersSearch (bound : Option String) (store : List Order)
    (vec : String → Int → List Order) (query : String) (k : Int) : List Order :=
  let normalized := normalize_query query
  let requested := _extract_customer_id query
  if requested.isSome && !matchesCurrentCustomer bound requested then []
  else if isIdToken 'c' normalized then
    if !matchesCurrentCustomer bound (some normalized) then []
    else
      takeInt (clampK (some k))
        (store.filter fun o =>
          normalize_query (o.customer_id.getD "") == normalized)
  else if isIdToken 'o' normalized then
    let results := store.filter fun o =>
      normalize_query (o.order_id.getD "") == normalized
    let results :=
      if pyTruthy bound then
        results.filter fun o => matchesCurrentCustomer bound o.customer_id
      else results
    takeInt (clampK (some k)) results
  else
    let results := vecSearch vec query k
    if pyTruthy bound then
      results.filter fun o => matchesCurrentCustomer bound o.customer_id
    else results

/-- `VectorSearchTool.retrieve` specialised to the guarded orders tool:
    empty search result yields the tool's empty message, otherwise the
    (serialized) result list. -/
def ordersRetrieve (bound : Option String) (store : List Order)
    (vec : String → Int → List Order) (query : String) (k : Int) : ExecResult :=
  let rs := guardedOrdersSearch bound store vec query k
  if rs.isEmpty then ExecResult.text "No matching orders found."
  else ExecResult.ordersData rs

/-- `tools.KnowledgeBaseTools._is_other_customer_query`: a truthy query,
    a truthy bound customer, and an extracted customer id that normalizes
    differently from the bound one. -/
def _is_other_customer_query (bound : Option String) (query : String) : Bool :=
  match bound with
  | none => false
  | some b =>
    if query = "" || b = "" then false
    else
      match _extract_customer_id query with
      | none => false
      | some r => normalize_query r != normalize_query b

/-- The `generic_orders` phrase set of `KnowledgeBaseTools.retrieve`. -/
def genericOrders : List String :=
  ["orders", "order", "my orders", "order history", "previous orders",
   "recent orders", "recent order", "my recent orders", "order list",
   "my order list"]

/-- The catalog / FAQ / policy / combined retrieval paths, external to the
    order claims: abstract string-producing backends. -/
structure RetrievalBackends where
  catalogRetrieve : String → Int → String
  faqRetrieve : String → Int → String
  policyRetrieve : String → Int → String
  combinedRetrieve : String → Int → String

/-- `tools.KnowledgeBaseTools.retrieve`: mode dispatch, with the
    customer-scoping rewrites of the orders mode. -/
def kbRetrieve (bound : Option String) (store : List Order)
    (vec : String → Int → List Order) (bk : RetrievalBackends)
    (query : String) (mode : String) (k : Int) : ExecResult :=
  let m := normalize_query (if mode = "" then "catalog" else mode)
  if m = "catalog" || m = "products" then
    ExecResult.text (bk.catalogRetrieve query k)
  else if m = "faq" || m = "faqs" then
    ExecResult.text (bk.faqRetrieve query k)
  else if m = "policy" || m = "company_policy" then
    ExecResult.text (bk.policyRetrieve query k)
  else if m = "orders" || m = "order" then
    if _is_other_customer_query bound query then
      ExecResult.text "Access denied. You can only access your own orders."
    else
      let normalized := normalize_query query
      let query2 :=
        if genericOrders.contains normalized then pyOrStr bound query
        else if pyTruthy bound && strContains normalized "order"
            && (_extract_order_id query).isNone
            && (_extract_customer_id query).isNone then
          pyOrStr bound query
        else query
      ordersRetrieve bound store vec query2 k
  else if m = "catalog+faq" || m = "catalog_faq" || m = "catalog+faqs" then
    ExecResult.text (bk.combinedRetrieve query k)
  else
    ExecResult.text ("Unknown mode '" ++ m ++ "'.")

/-! ## The tool executor -/

/-- The argument mapping of a tool-call request
    (`args.get(...)` on each key the executor reads). -/
structure ToolArgs where
  query : Option String := none
  mode : Option String := none
  k : Option Int := none
  order_id : Option String := none
  product_id : Option String := none
  confirm : Option PyVal := none
  deriving Repr, DecidableEq

/-- `_confirmation_required` inside `execute_tool_call`. -/
def _confirmation_required (action : String) : ActionResult :=
  ⟨"rejected", "Confirmation required before processing this request.",
    some ("confirmation_required:" ++ action), none⟩

/-- `tools.KnowledgeBaseTools.execute_tool_call`.  `indexStore` is the
    orders index metadata read by the guarded search; `st.orders` is the
    `order_database.json` collection read by `_find_order`. -/
def execute_tool_call (bound : Option String) (indexStore : List Order)
    (vec : String → Int → List Order) (bk : RetrievalBackends)
    (env : ActionEnv) (st : KBState) (tool_name : Option String)
    (args : ToolArgs) (default_query : String) : ExecResult × KBState :=
  let tn := stripStr (tool_name.getD "")
  if tn = "retrieve" then
    let query := pyOrStr args.query default_query
    let mode := pyOrStr args.mode "catalog"
    let k := clampK args.k
    if mode = "orders" || mode = "order" then
      if _is_other_customer_query bound query then
        (ExecResult.text "Access denied. You can only access your own orders.", st)
      else
        let normalized := normalize_query query
        let query2 :=
          if pyTruthy bound && strContains normalized "order"
              && (_extract_order_id query).isNone
              && (_extract_customer_id query).isNone then
            pyOrStr bound query
          else query
        (kbRetrieve bound indexStore vec bk query2 mode k, st)
    else
      (kbRetrieve bound indexStore vec bk query mode k, st)
  else if tn = "cancel_order" then
    if !(args.confirm == some (PyVal.bool true)) then
      (ExecResult.payload (_confirmation_required "cancel_order"), st)
    else
      match pyOrOpt args.order_id (_extract_order_id default_query) with
      | none => (ExecResult.text "Missing order_id for cancellation.", st)
      | some oid => cancel_order bound env st oid none
  else if tn = "initiate_return" then
    if !(args.confirm == some (PyVal.bool true)) then
      (ExecResult.payload (_confirmation_required "initiate_return"), st)
    else
      let oid := pyOrOpt args.order_id (_extract_order_id default_query)
      let pid := pyOrOpt args.product_id (_extract_product_id default_query)
      match oid, pid with
      | some o, some p => initiate_return bound env st o p none
      | _, _ => (ExecResult.text "Missing order_id or product_id for return.", st)
  else
    (ExecResult.text ("Unknown tool '" ++ tn ++ "'."), st)

/-! ## Conversation window and post-classification repair
    (`src/core/chat_engine.py`) -/

/-- A chat message (`{"role": ..., "content": ...}`). -/
structure Message where
  role : String
  content : String
  deriving Repr, DecidableEq

/-- Approximate token cost of one message: `len(content) // 4`. -/
def msgCost (m : Message) : Nat :=
  m.content.length / 4

/-- The eviction loop of `build_sliding_window`: given the running total
    and `window[idx:]`, evict whole messages oldest-first while the total
    exceeds `max_tokens` and more than one message remains. -/
def slideEvict (maxTokens : Int) : Int → List Message → List Message
  | _, [] => []
  | _, [m] => [m]
  | total, m :: rest =>
    if total > maxTokens then slideEvict maxTokens (total - msgCost m) rest
    else m :: rest

/-- `chat_engine.build_sliding_window`. -/
def build_sliding_window (history : List Message) (use_memory : Bool)
    (max_tokens : Int) : List Message :=
  match history with
  | [] => []
  | _ :: _ =>
    let system_msg := history.take 1
    if !use_memory then
      match history.reverse.find? (fun m => m.role == "user") with
      | some u => system_msg ++ [u]
      | none => system_msg
    else
      let total : Int := (history.map msgCost).sum
      system_msg ++ slideEvict max_tokens total (history.drop 1)

/-- Lowercase a whole string (`text.lower()`). -/
def lowerStr (s : String) : String :=
  strOf (lowerChars s.toList)

/-- `chat_engine._needs_order_lookup`: an order-id pattern, a customer-id
    pattern, or one of the order keywords in the lowered utterance. -/
def _needs_order_lookup (text : String) : Bool :=
  if text = "" then false
  else
    let t := lowerStr text
    (scanId 'o' none t.toList).isSome || (scanId 'c' none t.toList).isSome
      || ["order", "bought", "purchased", "shipment", "delivery",
          "where is my"].any (fun w => strContains t w)

/-- `chat_engine._needs_policy_check`. -/
def _needs_policy_check (text : String) : Bool :=
  if text = "" then false
  else
    let t := lowerStr text
    ["return", "refund", "exchange", "cancel", "cancellation",
     "return policy"].any (fun w => strContains t w)

/-- Argument dictionary of one tool call inside a routing plan. -/
structure PlanArgs where
  query : Option String := none
  mode : Option String := none
  k : Option Int := none
  deriving Repr, DecidableEq

/-- One tool call of a routing plan (`call.get("tool")`,
    `call.get("args")`). -/
structure PlanToolCall where
  tool : Option String := none
  args : Option PlanArgs := none
  deriving Repr, DecidableEq

/-- A routing plan as the repair rules see it. -/
structure Plan where
  route : Option String := none
  intent : Option String := none
  tool_calls : List PlanToolCall := []
  use_memory : Option Bool := none
  deriving Repr, DecidableEq

/-- `(call.get("args") or {})`. -/
def callArgs (c : PlanToolCall) : PlanArgs :=
  c.args.getD {}

/-- Does a plan already carry a `retrieve` call in the given mode? -/
def hasRetrieveMode (calls : List PlanToolCall) (mode : String) : Bool :=
  calls.any fun call =>
    call.tool == some "retrieve" && (callArgs call).mode == some mode

/-- `chat_engine._ensure_order_tool_call`: the order-lookup repair rule. -/
def _ensure_order_tool_call (plan : Plan) (user_input : String) : Plan :=
  if !_needs_order_lookup user_input then plan
  else if hasRetrieveMode plan.tool_calls "orders" then plan
  else
    let query := (_extract_customer_id user_input).getD user_input
    { plan with
      route := some "tools"
      tool_calls := plan.tool_calls ++
        [⟨some "retrieve", some ⟨some query, some "orders", some 5⟩⟩] }

/-- `chat_engine._ensure_policy_tool_call`: the policy-check repair rule. -/
def _ensure_policy_tool_call (plan : Plan) (user_input : String) : Plan :=
  if !_needs_policy_check user_input then plan
  else if hasRetrieveMode plan.tool_calls "policy" then plan
  else
    { plan with
      route := some "tools"
      tool_calls := plan.tool_calls ++
        [⟨some "retrieve", some ⟨some user_input, some "policy", some 5⟩⟩] }

/-- Both repair rules in the order `ChatAlita.run` applies them. -/
def applyRepairRules (plan : Plan) (user_input : String) : Plan :=
  _ensure_policy_tool_call (_ensure_order_tool_call plan user_input) user_input

/-! ## Price parsing (`src/utils/search_utils.py`) -/

/-- Value of a digit run. -/
def digitsToNat (ds : List Char) : Nat :=
  ds.foldl (fun a c => a * 10 + (c.toNat - 48)) 0

/-- Greedy `\d{1,3}`: up to three leading digits and the remainder. -/
def takeDigits3 (cs : List Char) : List Char × List Char :=
  let ds := (cs.takeWhile Char.isDigit).take 3
  (ds, cs.drop ds.length)

/-- Greedy `(?:,\d{3})*`: maximal run of comma-plus-three-digit groups. -/
def commaGroups : List Char → List Char
  | ',' :: d1 :: d2 :: d3 :: rest =>
    if d1.isDigit && d2.isDigit && d3.isDigit then
      ',' :: d1 :: d2 :: d3 :: commaGroups rest
    else []
  | _ => []

/-- The capturing group `(\d{1,3}(?:,\d{3})*|\d+(?:\.\d+)?k?)` of the
    price regexes, under Python's ordered-alternation backtracking: the
    first alternative succeeds at any digit (its star may be empty and
    nothing follows the group), so the second alternative — the one that
    would accept `1.5k` — is unreachable. -/
def matchNumGroup (cs : List Char) : Option (List Char) :=
  let (ds, rest) := takeDigits3 cs
  if ds.isEmpty then none else some (ds ++ commaGroups rest)

/-- The literal part `(?:under|below|less than)` at the current position. -/
def matchMaxKeyword (cs : List Char) : Option (List Char) :=
  if "under".toList.isPrefixOf cs then some (cs.drop 5)
  else if "below".toList.isPrefixOf cs then some (cs.drop 5)
  else if "less than".toList.isPrefixOf cs then some (cs.drop 9)
  else none

/-- `\s+` followed by the number group (the group must start with a digit,
    so only the maximal whitespace run can precede it). -/
def matchWsNum : List Char → Option (List Char)
  | [] => none
  | c :: rest =>
    if wsChar c then matchNumGroup (rest.dropWhile wsChar) else none

/-- One attempt of the whole `max_price` regex at the current position. -/
def tryMaxAt (cs : List Char) : Option (List Char) :=
  (matchMaxKeyword cs).bind matchWsNum

/-- `re.search` for the `max_price` regex: leftmost successful position. -/
def searchMaxCapture : List Char → Option (List Char)
  | [] => none
  | c :: rest =>
    match tryMaxAt (c :: rest) with
    | some cap => some cap
    | none => searchMaxCapture rest

/-- `^(\d+(?:\.\d+)?)(k)?$` on the cleaned token, with the `int(value)`
    truncation.  The code computes in binary floating point; on tokens
    whose value is exactly representable (all tokens used in theorems
    below) the rational computation here coincides. -/
def parseNumTok (cs : List Char) : Option Int :=
  let intDs := cs.takeWhile Char.isDigit
  if intDs.isEmpty then none
  else
    match cs.drop intDs.length with
    | [] => some (digitsToNat intDs : Int)
    | ['k'] => some ((digitsToNat intDs : Int) * 1000)
    | '.' :: rest2 =>
      let fr := rest2.takeWhile Char.isDigit
      if fr.isEmpty then none
      else
        let num := digitsToNat (intDs ++ fr)
        match rest2.drop fr.length with
        | [] => some ((num / 10 ^ fr.length : Nat) : Int)
        | ['k'] => some ((num * 1000 / 10 ^ fr.length : Nat) : Int)
        | _ => none
    | _ => none

/-- `search_utils._parse_number`: lower, drop commas, strip, then match. -/
def _parse_number (token : String) : Option Int :=
  parseNumTok (stripChars ((lowerChars token.toList).filter (fun c => !(c == ','))))

/-- The `max_price` field computed by `search_utils.parse_query`:
    lower the text, blank out `$`, search for the price regex, and feed
    the captured token to `_parse_number`. -/
def parseQueryMaxPrice (text : String) : Option Int :=
  if text = "" then none
  else
    let raw := (lowerChars text.toList).map fun c => if c = '$' then ' ' else c
    (searchMaxCapture raw).bind fun cap => _parse_number (strOf cap)

/-! ## Spec-side notions: well-formed id occurrences in a text

    These formalize the claims' phrase "the text contains a well-formed
    order/customer id (letter plus 4 digits, any case)": a decomposition
    of the lowered text around a letter-plus-four-digits block that sits
    on word boundaries. -/

/-- A well-formed id block: the letter followed by exactly four digits. -/
def idBlockOk (letter : Char) (block : List Char) : Bool :=
  match block with
  | [c, d1, d2, d3, d4] =>
    c == letter && d1.isDigit && d2.isDigit && d3.isDigit && d4.isDigit
  | _ => false

/-- Left word boundary of an occurrence preceded by `pre` (with `prev`
    the character before the whole scanned segment, `none` at the start
    of the text). -/
def leftBoundOk (prev : Option Char) (pre : List Char) : Bool :=
  match pre.getLast? with
  | none => boundaryPrev prev
  | some c => !isWordChar c

/-- Right word boundary of an occurrence followed by `post`. -/
def rightBoundOk (post : List Char) : Bool :=
  boundaryNext post

/-- The text contains a well-formed id of the given letter, at the
    position singled out by the decomposition `pre ++ block ++ post`
    of its lowered character list. -/
def IdOccurs (letter : Char) (text : String)
    (pre block post : List Char) : Prop :=
  lowerChars text.toList = pre ++ block ++ post ∧
    idBlockOk letter block = true ∧
    leftBoundOk none pre = true ∧
    rightBoundOk post = true

/-- Leftmost-extraction contract of an id extractor `f`: whenever the
    text contains a well-formed id of the letter, `f` succeeds and
    returns, uppercased, a well-formed id occurring in the text no later
    than the given one (hence the leftmost occurrence when the given one
    is leftmost). -/
def LeftmostExtractSpec (letter : Char) (f : String → Option String) : Prop :=
  ∀ (text : String) (pre block post : List Char),
    IdOccurs letter text pre block post →
    ∃ pre2 block2 post2,
      IdOccurs letter text pre2 block2 post2 ∧
      pre2.length ≤ pre.length ∧
      f text = some (strOf (block2.map Char.toUpper))

/-! ## Helper lemmas -/

theorem toLower_of_isDigit {c : Char} (h : c.isDigit = true) : c.toLower = c := by
  simp only [Char.isDigit, Bool.and_eq_true, decide_eq_true_eq] at h
  unfold Char.toLower
  rw [if_neg]
  intro hc
  have h1 : c.toNat ≤ 57 := h.2
  omega

theorem wsChar_of_isDigit {c : Char} (h : c.isDigit = true) : wsChar c = false := by
  simp only [Char.isDigit, Bool.and_eq_true, decide_eq_true_eq] at h
  simp only [wsChar, Bool.or_eq_false_iff, decide_eq_false_iff_not]
  refine ⟨⟨⟨⟨⟨?_, ?_⟩, ?_⟩, ?_⟩, ?_⟩, ?_⟩ <;> rintro rfl <;> exact absurd h (by decide)

theorem str_append_ne_empty (a b : String) (ha : a.data ≠ []) : a ++ b ≠ "" := by
  intro hc
  apply ha
  have hd := congrArg String.data hc
  rw [String.data_append] at hd
  exact (List.append_eq_nil.mp hd).1

theorem str_append_data_ne (a b : String) (ha : a.data ≠ []) :
    (a ++ b).data ≠ [] := by
  rw [String.data_append]
  simp [List.append_eq_nil, ha]

/-- A bare id token (`re.fullmatch(r"<letter>\d{4}", s)`) has the shape
    letter-then-four-digits. -/
theorem isIdToken_shape {letter : Char} {s : String}
    (h : isIdToken letter s = true) :
    ∃ d1 d2 d3 d4, s.toList = [letter, d1, d2, d3, d4] ∧
      d1.isDigit = true ∧ d2.isDigit = true ∧ d3.isDigit = true ∧
      d4.isDigit = true := by
  unfold isIdToken at h
  rcases hs : s.toList with _ | ⟨c, _ | ⟨d1, _ | ⟨d2, _ | ⟨d3, _ | ⟨d4, _ | ⟨e, tail⟩⟩⟩⟩⟩⟩ <;>
    rw [hs] at h
  · exact Bool.noConfusion h
  · exact Bool.noConfusion h
  · exact Bool.noConfusion h
  · exact Bool.noConfusion h
  · exact Bool.noConfusion h
  · have h' : (c == letter && d1.isDigit && d2.isDigit && d3.isDigit
        && d4.isDigit) = true := h
    simp only [Bool.and_eq_true, beq_iff_eq] at h'
    obtain ⟨⟨⟨⟨hc, hd1⟩, hd2⟩, hd3⟩, hd4⟩ := h'
    subst hc
    exact ⟨d1, d2, d3, d4, rfl, hd1, hd2, hd3, hd4⟩
  · exact Bool.noConfusion h

theorem isIdToken_ne_empty {letter : Char} {s : String}
    (h : isIdToken letter s = true) : s ≠ "" := by
  obtain ⟨d1, d2, d3, d4, hs, -⟩ := isIdToken_shape h
  intro hc
  rw [hc] at hs
  exact absurd hs (by simp [String.toList])

/-- A token that fullmatches `c\d{4}` cannot also fullmatch `o\d{4}`. -/
theorem isIdToken_letter_unique {l1 l2 : Char} {s : String}
    (h1 : isIdToken l1 s = true) (h2 : isIdToken l2 s = true) : l1 = l2 := by
  obtain ⟨d1, d2, d3, d4, hs1, -⟩ := isIdToken_shape h1
  obtain ⟨e1, e2, e3, e4, hs2, -⟩ := isIdToken_shape h2
  rw [hs1] at hs2
  injection hs2 with hhead htail

/-- Lowering and stripping fix a bare lowercase id token:
    `normalize_query` is the identity on `"c1234"`-shaped strings
    (needed because the guarded search re-normalizes the already
    normalized query when comparing against the bound customer). -/
theorem normalize_query_idToken {letter : Char} {s : String}
    (h : isIdToken letter s = true)
    (hlet : letter.toLower = letter) (hws : wsChar letter = false) :
    normalize_query s = s := by
  obtain ⟨d1, d2, d3, d4, hs, hd1, hd2, hd3, hd4⟩ := isIdToken_shape h
  have hlow : lowerChars s.toList = s.toList := by
    rw [hs]
    simp [lowerChars, hlet, toLower_of_isDigit hd1, toLower_of_isDigit hd2,
      toLower_of_isDigit hd3, toLower_of_isDigit hd4]
  have hstrip : stripChars s.toList = s.toList := by
    rw [hs]
    unfold stripChars
    rw [List.dropWhile_cons, if_neg (by simp [hws])]
    have hrev : ([letter, d1, d2, d3, d4].reverse : List Char)
        = [d4, d3, d2, d1, letter] := by simp
    rw [hrev, List.dropWhile_cons, if_neg (by simp [wsChar_of_isDigit hd4])]
    simp
  unfold normalize_query
  rw [hlow, hstrip, strOf]
  cases s
  simp [String.toList]

/-- Every branch of `cancel_order` returns a structured payload and a
    state that differs from the input state only by one appended action
    log entry whose `result` is `approved` or `rejected` and whose
    `reason` is non-empty. -/
theorem cancel_order_shape (bound : Option String) (env : ActionEnv)
    (st : KBState) (oid : String) (carg : Option String) :
    ∃ (r : ActionResult) (e : ActionLogEntry),
      cancel_order bound env st oid carg = (ExecResult.payload r, _log_action st e)
      ∧ (e.result = "approved" ∨ e.result = "rejected") ∧ e.reason ≠ "" := by
  simp only [cancel_order]
  rcases h : _find_order st.orders oid with _ | o
  · exact ⟨_, _, rfl, Or.inr rfl,
      (by decide : ("Order not found." : String) ≠ "")⟩
  · dsimp only
    split_ifs with h1 h2
    · exact ⟨_, _, rfl, Or.inr rfl,
        (by decide : ("Order does not belong to this customer." : String) ≠ "")⟩
    · exact ⟨_, _, rfl, Or.inr rfl,
        str_append_ne_empty _ _ (str_append_data_ne _ _ (by decide))⟩
    · exact ⟨_, _, rfl, Or.inl rfl,
        (by decide : ("Cancellation request submitted." : String) ≠ "")⟩

/-- Every branch of `initiate_return` likewise appends exactly one log
    entry with a terminal result and a non-empty reason. -/
theorem initiate_return_shape (bound : Option String) (env : ActionEnv)
    (st : KBState) (oid pid : String) (carg : Option String) :
    ∃ (r : ActionResult) (e : ActionLogEntry),
      initiate_return bound env st oid pid carg
        = (ExecResult.payload r, _log_action st e)
      ∧ (e.result = "approved" ∨ e.result = "rejected") ∧ e.reason ≠ "" := by
  simp only [initiate_return]
  rcases h : _find_order st.orders oid with _ | o
  · exact ⟨_, _, rfl, Or.inr rfl,
      (by decide : ("Order not found." : String) ≠ "")⟩
  · dsimp only
    split_ifs with h1 h2 h3
    · exact ⟨_, _, rfl, Or.inr rfl,
        (by decide : ("Order does not belong to this customer." : String) ≠ "")⟩
    · exact ⟨_, _, rfl, Or.inr rfl,
        str_append_ne_empty _ _ (str_append_data_ne _ _ (by decide))⟩
    · exact ⟨_, _, rfl, Or.inr rfl,
        (by decide : ("Product not found in order." : String) ≠ "")⟩
    · exact ⟨_, _, rfl, Or.inl rfl,
        (by decide : ("Return request submitted." : String) ≠ "")⟩

/-! ## Claim theorems -/

/-- C9: the claim says `parse` returns `maxPrice` equal to the number
    following "under"/"below"/"less than", with thousands separators and a
    trailing `k` multiplier (×1000, truncated), e.g. `under 1.5k` yields
    1500.  The code disagrees: in the regex
    `(\d{1,3}(?:,\d{3})*|\d+(?:\.\d+)?k?)` the first alternative already
    succeeds on the digit `1` (its star may be empty), so the capture for
    "under 1.5k" is just "1" and `max_price` is 1 — even though
    `_parse_number` itself, fed the full token "1.5k", would return 1500.
    Plain runs of four or more digits are truncated to their first three
    the same way ("under 1500" gives 150), while comma-separated input
    is handled correctly. -/
theorem C9_price_regex_divergence :
    parseQueryMaxPrice "under 1.5k" = some 1
    ∧ _parse_number "1.5k" = some 1500
    ∧ parseQueryMaxPrice "under 1500" = some 150
    ∧ parseQueryMaxPrice "under 1,500" = some 1500
    ∧ parseQueryMaxPrice "under 99" = some 99 := by
  refine ⟨?_, ?_, ?_, ?_, ?_⟩ <;> decide

/-- C1: a `cancel_order` or `initiate_return` tool call whose args do not
    carry `confirm` set to exactly the boolean `True` is rejected by
    `execute_tool_call` with status `rejected` and reason
    `confirmation_required:<action>`, without touching the order store,
    issuing a ticket, or appending to the action log — the returned state
    is the input state, for every store, backend and environment. -/
theorem C1_confirmation_gate (bound : Option String) (indexStore : List Order)
    (vec : String → Int → List Order) (bk : RetrievalBackends) (env : ActionEnv)
    (st : KBState) (args : ToolArgs) (dq : String)
    (h : args.confirm ≠ some (PyVal.bool true)) :
    execute_tool_call bound indexStore vec bk env st (some "cancel_order") args dq =
      (ExecResult.payload ⟨"rejected",
        "Confirmation required before processing this request.",
        some "confirmation_required:cancel_order", none⟩, st)
    ∧ execute_tool_call bound indexStore vec bk env st (some "initiate_return") args dq =
      (ExecResult.payload ⟨"rejected",
        "Confirmation required before processing this request.",
        some "confirmation_required:initiate_return", none⟩, st) := by
  have hc : (args.confirm == some (PyVal.bool true)) = false := by
    cases hx : args.confirm == some (PyVal.bool true)
    · rfl
    · exact absurd (eq_of_beq hx) h
  constructor
  · simp only [execute_tool_call]
    rw [show stripStr ((some "cancel_order").getD "") = "cancel_order" from by decide]
    rw [if_neg (by decide), if_pos rfl, hc]
    rfl
  · simp only [execute_tool_call]
    rw [show stripStr ((some "initiate_return").getD "") = "initiate_return" from by decide]
    rw [if_neg (by decide), if_neg (by decide), if_pos rfl, hc]
    rfl

/-- C1 witness: concrete instance with `confirm` absent. -/
theorem C1_confirmation_gate_witness :
    execute_tool_call none [] (fun _ _ => []) ⟨fun _ _ => "", fun _ _ => "",
        fun _ _ => "", fun _ _ => ""⟩ ⟨"t", "aaaaaa"⟩ ⟨[], []⟩
      (some "cancel_order") {} "please cancel order O0001" =
      (ExecResult.payload ⟨"rejected",
        "Confirmation required before processing this request.",
        some "confirmation_required:cancel_order", none⟩, ⟨[], []⟩) :=
  (C1_confirmation_gate none [] (fun _ _ => []) ⟨fun _ _ => "", fun _ _ => "",
    fun _ _ => "", fun _ _ => ""⟩ ⟨"t", "aaaaaa"⟩ ⟨[], []⟩ {}
    "please cancel order O0001" (by decide)).1

/-- C3: on an existing order of the bound customer, `cancel_order`
    rejects any status outside {Placed, Shipped} with a reason naming the
    actual status, and `initiate_return` rejects any status other than
    Delivered likewise.  (`s ≠ ""` because an empty status string is
    displayed as `Unknown` by `order_status or "Unknown"`; the data
    model's statuses are the five non-empty enum values.) -/
theorem C3_status_rejection (bound : Option String) (env : ActionEnv)
    (st : KBState) (oid pid : String) (carg : Option String) (o : Order)
    (s : String)
    (hfind : _find_order st.orders oid = some o)
    (hstatus : o.order_status = some s) (hs0 : s ≠ "")
    (hown : _order_belongs_to_customer o (_resolve_customer_id bound carg) = true) :
    ((s ≠ "Placed" ∧ s ≠ "Shipped") →
      (cancel_order bound env st oid carg).1 = ExecResult.payload
        ⟨"rejected", "Order is not eligible for cancellation.",
          some ("Order status is " ++ s ++
            ", only Placed or Shipped can be cancelled."), none⟩)
    ∧ (s ≠ "Delivered" →
      (initiate_return bound env st oid pid carg).1 = ExecResult.payload
        ⟨"rejected", "Order is not eligible for return.",
          some ("Order status is " ++ s ++
            ", only Delivered orders can be returned."), none⟩) := by
  constructor
  · rintro ⟨hp, hsh⟩
    simp only [cancel_order]
    rw [hfind]
    simp [hown, hstatus, hp, hsh, statusOrUnknown, hs0]
  · intro hd
    simp only [initiate_return]
    rw [hfind]
    simp [hown, hstatus, hd, statusOrUnknown, hs0]

/-- C3 witness: a Cancelled order is rejected by both actions with the
    status named in the reason. -/
theorem C3_status_rejection_witness :
    (cancel_order (some "C1001") ⟨"t", "aaaaaa"⟩
        ⟨[⟨some "O0001", some "C1001", some "Cancelled", [⟨some "P0001"⟩]⟩], []⟩
        "O0001" none).1 = ExecResult.payload
      ⟨"rejected", "Order is not eligible for cancellation.",
        some "Order status is Cancelled, only Placed or Shipped can be cancelled.",
        none⟩
    ∧ (initiate_return (some "C1001") ⟨"t", "aaaaaa"⟩
        ⟨[⟨some "O0001", some "C1001", some "Cancelled", [⟨some "P0001"⟩]⟩], []⟩
        "O0001" "P0001" none).1 = ExecResult.payload
      ⟨"rejected", "Order is not eligible for return.",
        some "Order status is Cancelled, only Delivered orders can be returned.",
        none⟩ := by
  have h := C3_status_rejection (some "C1001") ⟨"t", "aaaaaa"⟩
    ⟨[⟨some "O0001", some "C1001", some "Cancelled", [⟨some "P0001"⟩]⟩], []⟩
    "O0001" "P0001" none
    ⟨some "O0001", some "C1001", some "Cancelled", [⟨some "P0001"⟩]⟩
    "Cancelled" (by decide) (by decide) (by decide) (by decide)
  exact ⟨h.1 (by decide), h.2 (by decide)⟩

/-- C5: neither action mutates any order record — the returned state
    changes only by one appended log entry, so the orders collection is
    unchanged — and consequently a second `cancel_order` on the same
    Placed/Shipped order is approved again with a fresh ticket. -/
theorem C5_orders_never_mutated :
    (∀ (bound : Option String) (env : ActionEnv) (st : KBState) (oid : String)
        (carg : Option String),
      (cancel_order bound env st oid carg).2.orders = st.orders)
    ∧ (∀ (bound : Option String) (env : ActionEnv) (st : KBState)
        (oid pid : String) (carg : Option String),
      (initiate_return bound env st oid pid carg).2.orders = st.orders)
    ∧ ∀ (bound : Option String) (env1 env2 : ActionEnv) (st : KBState)
        (oid : String) (carg : Option String) (o : Order),
      _find_order st.orders oid = some o →
      (o.order_status = some "Placed" ∨ o.order_status = some "Shipped") →
      (pyTruthy (_resolve_customer_id bound carg) = false ∨
        _order_belongs_to_customer o (_resolve_customer_id bound carg) = true) →
      (cancel_order bound env1 st oid carg).1 = ExecResult.payload
        ⟨"approved", "Cancellation request submitted.", none,
          some ("CAN-" ++ env1.ticketHex)⟩
      ∧ (cancel_order bound env2 (cancel_order bound env1 st oid carg).2
          oid carg).1 = ExecResult.payload
        ⟨"approved", "Cancellation request submitted.", none,
          some ("CAN-" ++ env2.ticketHex)⟩ := by
  have hframe : ∀ (bound : Option String) (env : ActionEnv) (st : KBState)
      (oid : String) (carg : Option String),
      (cancel_order bound env st oid carg).2.orders = st.orders := by
    intro bound env st oid carg
    obtain ⟨r, e, heq, -⟩ := cancel_order_shape bound env st oid carg
    rw [heq]
    rfl
  refine ⟨hframe, ?_, ?_⟩
  · intro bound env st oid pid carg
    obtain ⟨r, e, heq, -⟩ := initiate_return_shape bound env st oid pid carg
    rw [heq]
    rfl
  · intro bound env1 env2 st oid carg o hfind hstat hok
    have key : ∀ (env : ActionEnv) (st' : KBState), st'.orders = st.orders →
        (cancel_order bound env st' oid carg).1 = ExecResult.payload
          ⟨"approved", "Cancellation request submitted.", none,
            some ("CAN-" ++ env.ticketHex)⟩ := by
      intro env st' hst
      simp only [cancel_order]
      rw [hst, hfind]
      have hostat : (o.order_status == some "Placed"
          || o.order_status == some "Shipped") = true := by
        rcases hstat with hps | hps <;> simp [hps]
      rcases hok with hok | hok <;> simp [hok, hostat]
    exact ⟨key env1 st rfl, key env2 _ (hframe bound env1 st oid carg)⟩

/-- C5 witness: a Placed order is approved twice with the two supplied
    ticket ids, the order record untouched. -/
theorem C5_orders_never_mutated_witness :
    (cancel_order (some "C1001") ⟨"t1", "aaaaaa"⟩
        ⟨[⟨some "O0001", some "C1001", some "Placed", []⟩], []⟩
        "O0001" none).1 = ExecResult.payload
      ⟨"approved", "Cancellation request submitted.", none, some "CAN-aaaaaa"⟩
    ∧ (cancel_order (some "C1001") ⟨"t2", "bbbbbb"⟩
        (cancel_order (some "C1001") ⟨"t1", "aaaaaa"⟩
          ⟨[⟨some "O0001", some "C1001", some "Placed", []⟩], []⟩
          "O0001" none).2 "O0001" none).1 = ExecResult.payload
      ⟨"approved", "Cancellation request submitted.", none, some "CAN-bbbbbb"⟩ := by
  have h := (C5_orders_never_mutated.2.2 (some "C1001") ⟨"t1", "aaaaaa"⟩
    ⟨"t2", "bbbbbb"⟩ ⟨[⟨some "O0001", some "C1001", some "Placed", []⟩], []⟩
    "O0001" none ⟨some "O0001", some "C1001", some "Placed", []⟩
    (by decide) (Or.inl (by decide)) (Or.inr (by decide)))
  exact h

/-- C4 counterexample: with `confirm=true` but no resolvable order id,
    `execute_tool_call` on `cancel_order` returns the plain string
    `Missing order_id for cancellation.` and appends nothing to the
    action log — contradicting the claim that the missing-identifier
    failure writes exactly one `ActionLogEntry`. -/
theorem C4_counterexample :
    execute_tool_call none [] (fun _ _ => []) ⟨fun _ _ => "", fun _ _ => "",
        fun _ _ => "", fun _ _ => ""⟩ ⟨"t", "aaaaaa"⟩ ⟨[], []⟩
      (some "cancel_order") {confirm := some (PyVal.bool true)} "cancel my order"
      = (ExecResult.text "Missing order_id for cancellation.", ⟨[], []⟩)
    ∧ (execute_tool_call none [] (fun _ _ => []) ⟨fun _ _ => "", fun _ _ => "",
        fun _ _ => "", fun _ _ => ""⟩ ⟨"t", "aaaaaa"⟩ ⟨[], []⟩
      (some "cancel_order") {confirm := some (PyVal.bool true)}
      "cancel my order").2.actionLog.length = 0 := by
  refine ⟨?_, ?_⟩ <;> decide

/-- C4 (amended): with confirmation given, every branch of the
    `cancel_order` / `initiate_return` tools other than the
    missing-identifier failure writes exactly one `ActionLogEntry` with
    `result` in {approved, rejected} and a non-empty reason; the
    missing-identifier failure returns a plain error string and writes
    no log entry at all. -/
theorem C4_amended (bound : Option String) (indexStore : List Order)
    (vec : String → Int → List Order) (bk : RetrievalBackends) (env : ActionEnv)
    (st : KBState) (args : ToolArgs) (dq : String)
    (hconfirm : args.confirm = some (PyVal.bool true)) :
    ((pyOrOpt args.order_id (_extract_order_id dq) = none →
        execute_tool_call bound indexStore vec bk env st (some "cancel_order")
          args dq = (ExecResult.text "Missing order_id for cancellation.", st))
     ∧ ∀ oid, pyOrOpt args.order_id (_extract_order_id dq) = some oid →
        ∃ e : ActionLogEntry,
          (execute_tool_call bound indexStore vec bk env st (some "cancel_order")
            args dq).2.actionLog = st.actionLog ++ [e]
          ∧ (e.result = "approved" ∨ e.result = "rejected") ∧ e.reason ≠ "")
    ∧ ((pyOrOpt args.order_id (_extract_order_id dq) = none ∨
          pyOrOpt args.product_id (_extract_product_id dq) = none →
        execute_tool_call bound indexStore vec bk env st (some "initiate_return")
          args dq
          = (ExecResult.text "Missing order_id or product_id for return.", st))
     ∧ ∀ oid pid, pyOrOpt args.order_id (_extract_order_id dq) = some oid →
        pyOrOpt args.product_id (_extract_product_id dq) = some pid →
        ∃ e : ActionLogEntry,
          (execute_tool_call bound indexStore vec bk env st
            (some "initiate_return") args dq).2.actionLog = st.actionLog ++ [e]
          ∧ (e.result = "approved" ∨ e.result = "rejected") ∧ e.reason ≠ "") := by
  have hcanc : ∀ (r : ExecResult × KBState),
      (match pyOrOpt args.order_id (_extract_order_id dq) with
        | none => (ExecResult.text "Missing order_id for cancellation.", st)
        | some oid => cancel_order bound env st oid none) = r →
      execute_tool_call bound indexStore vec bk env st (some "cancel_order")
        args dq = r := by
    intro r hr
    simp only [execute_tool_call]
    rw [show stripStr ((some "cancel_order").getD "") = "cancel_order" from by
      decide]
    rw [if_neg (by decide), if_pos rfl, if_neg (by simp [hconfirm])]
    exact hr
  have hret : ∀ (r : ExecResult × KBState),
      (match pyOrOpt args.order_id (_extract_order_id dq),
          pyOrOpt args.product_id (_extract_product_id dq) with
        | some o, some p => initiate_return bound env st o p none
        | _, _ => (ExecResult.text "Missing order_id or product_id for return.",
            st)) = r →
      execute_tool_call bound indexStore vec bk env st (some "initiate_return")
        args dq = r := by
    intro r hr
    simp only [execute_tool_call]
    rw [show stripStr ((some "initiate_return").getD "") = "initiate_return" from
      by decide]
    rw [if_neg (by decide), if_neg (by decide), if_pos rfl,
      if_neg (by simp [hconfirm])]
    exact hr
  refine ⟨⟨?_, ?_⟩, ?_, ?_⟩
  · intro hmiss
    apply hcanc
    rw [hmiss]
  · intro oid hsome
    obtain ⟨r, e, heq, hres, hne⟩ := cancel_order_shape bound env st oid none
    rw [hcanc (ExecResult.payload r, _log_action st e) (by rw [hsome]; exact heq)]
    exact ⟨e, rfl, hres, hne⟩
  · intro hmiss
    apply hret
    rcases hmiss with hmiss | hmiss
    · rw [hmiss]
    · rw [hmiss]
      rcases pyOrOpt args.order_id (_extract_order_id dq) with _ | o <;> rfl
  · intro oid pid hsome1 hsome2
    obtain ⟨r, e, heq, hres, hne⟩ :=
      initiate_return_shape bound env st oid pid none
    rw [hret (ExecResult.payload r, _log_action st e)
      (by rw [hsome1, hsome2]; exact heq)]
    exact ⟨e, rfl, hres, hne⟩

/-- C4 witness: with `confirm=true` and an explicit order id on a concrete
    state, exactly one log entry is appended. -/
theorem C4_amended_witness :
    ∃ e : ActionLogEntry,
      (execute_tool_call none [] (fun _ _ => []) ⟨fun _ _ => "", fun _ _ => "",
          fun _ _ => "", fun _ _ => ""⟩ ⟨"t", "aaaaaa"⟩ ⟨[], []⟩
        (some "cancel_order")
        {confirm := some (PyVal.bool true), order_id := some "O0001"}
        "whatever").2.actionLog = ([] : List ActionLogEntry) ++ [e]
      ∧ (e.result = "approved" ∨ e.result = "rejected") ∧ e.reason ≠ "" :=
  (C4_amended none [] (fun _ _ => []) ⟨fun _ _ => "", fun _ _ => "",
    fun _ _ => "", fun _ _ => ""⟩ ⟨"t", "aaaaaa"⟩ ⟨[], []⟩
    {confirm := some (PyVal.bool true), order_id := some "O0001"}
    "whatever" rfl).1.2 "O0001" (by decide)

/-- C2 counterexample: the query `"c1001 c2002"` (bound customer C1001)
    explicitly contains the well-formed customer-id pattern `c2002`,
    different from the bound id, yet the executor does not return the
    denial string: `_is_other_customer_query` only inspects the leftmost
    pattern (`c1001`, which matches), so the guarded search runs and the
    call returns the ordinary empty-result message. -/
theorem C2_counterexample :
    IdOccurs 'c' "c1001 c2002" ['c', '1', '0', '0', '1', ' ']
      ['c', '2', '0', '0', '2'] []
    ∧ strOf (['c', '2', '0', '0', '2'].map Char.toUpper) = "C2002"
    ∧ normalize_query "C2002" ≠ normalize_query "C1001"
    ∧ execute_tool_call (some "C1001") [] (fun _ _ => []) ⟨fun _ _ => "",
        fun _ _ => "", fun _ _ => "", fun _ _ => ""⟩ ⟨"t", "aaaaaa"⟩ ⟨[], []⟩
        (some "retrieve") {query := some "c1001 c2002", mode := some "orders"} ""
      = (ExecResult.text "No matching orders found.", ⟨[], []⟩)
    ∧ ExecResult.text "No matching orders found."
      ≠ ExecResult.text "Access denied. You can only access your own orders." := by
  refine ⟨⟨by decide, by decide, by decide, by decide⟩, by decide, by decide,
    ?_, by decide⟩
  decide

/-- C2 (amended): whenever the customer-id pattern the extractor finds in
    the resolved query — the leftmost one — differs from the bound
    customer id, the executor's orders-mode `retrieve` returns the denial
    string and the unchanged state, for every order store and vector
    backend (no search is consulted). -/
theorem C2_amended (b : String) (hb : b ≠ "") (indexStore : List Order)
    (vec : String → Int → List Order) (bk : RetrievalBackends) (env : ActionEnv)
    (st : KBState) (args : ToolArgs) (dq q r : String)
    (hq : args.query = some q) (hm : args.mode = some "orders")
    (hr : _extract_customer_id q = some r)
    (hne : normalize_query r ≠ normalize_query b) :
    execute_tool_call (some b) indexStore vec bk env st (some "retrieve") args dq
      = (ExecResult.text "Access denied. You can only access your own orders.",
          st) := by
  have hq0 : q ≠ "" := by
    intro h0
    rw [h0] at hr
    exact Option.noConfusion hr
  have hpy : pyOrStr (some q) dq = q := by simp [pyOrStr, hq0]
  have hoq : _is_other_customer_query (some b) q = true := by
    simp only [_is_other_customer_query]
    rw [if_neg (by simp [hq0, hb]), hr]
    show (normalize_query r != normalize_query b) = true
    simpa [bne_iff_ne] using hne
  simp only [execute_tool_call]
  rw [show stripStr ((some "retrieve").getD "") = "retrieve" from by decide]
  rw [if_pos rfl]
  simp only [hq, hm, hpy]
  rw [show pyOrStr (some "orders") "catalog" = "orders" from rfl]
  rw [if_pos (by decide), if_pos hoq]

/-- C2 witness: a query naming only the foreign customer id C2002 is
    denied. -/
theorem C2_amended_witness :
    execute_tool_call (some "C1001") [] (fun _ _ => []) ⟨fun _ _ => "",
        fun _ _ => "", fun _ _ => "", fun _ _ => ""⟩ ⟨"t", "aaaaaa"⟩ ⟨[], []⟩
      (some "retrieve")
      {query := some "show c2002 orders", mode := some "orders"} ""
      = (ExecResult.text "Access denied. You can only access your own orders.",
          ⟨[], []⟩) :=
  C2_amended "C1001" (by decide) [] (fun _ _ => []) ⟨fun _ _ => "",
    fun _ _ => "", fun _ _ => "", fun _ _ => ""⟩ ⟨"t", "aaaaaa"⟩ ⟨[], []⟩
    {query := some "show c2002 orders", mode := some "orders"} ""
    "show c2002 orders" "C2002" rfl rfl (by decide) (by decide)

theorem hasRetrieveMode_append_true (calls : List PlanToolCall)
    (c : PlanToolCall) (m : String) (h : hasRetrieveMode calls m = true) :
    hasRetrieveMode (calls ++ [c]) m = true := by
  simp only [hasRetrieveMode, List.any_append, Bool.or_eq_true]
  exact Or.inl h

theorem hasRetrieveMode_appended (calls : List PlanToolCall) (q m : String)
    (k : Option Int) :
    hasRetrieveMode (calls ++ [⟨some "retrieve", some ⟨some q, some m, k⟩⟩]) m
      = true := by
  simp [hasRetrieveMode, List.any_append, callArgs]

/-- The order repair rule is the identity as soon as an orders retrieve
    call is present. -/
theorem ensure_order_of_has (plan : Plan) (u : String)
    (h : hasRetrieveMode plan.tool_calls "orders" = true) :
    _ensure_order_tool_call plan u = plan := by
  unfold _ensure_order_tool_call
  by_cases hn : _needs_order_lookup u = true
  · rw [if_neg (by simp [hn]), if_pos h]
  · rw [if_pos (by simp [Bool.not_eq_true] at hn ⊢; exact hn)]

/-- After the order repair rule fires (or was unnecessary because the call
    was present), an orders retrieve call is present. -/
theorem ensure_order_has_after (plan : Plan) (u : String)
    (hn : _needs_order_lookup u = true) :
    hasRetrieveMode (_ensure_order_tool_call plan u).tool_calls "orders"
      = true := by
  unfold _ensure_order_tool_call
  rw [if_neg (by simp [hn])]
  by_cases h : hasRetrieveMode plan.tool_calls "orders" = true
  · rw [if_pos h]; exact h
  · rw [if_neg h]
    exact hasRetrieveMode_appended plan.tool_calls _ "orders" (some 5)

/-- The policy repair rule never removes an orders retrieve call. -/
theorem ensure_policy_preserves_orders (plan : Plan) (u : String)
    (h : hasRetrieveMode plan.tool_calls "orders" = true) :
    hasRetrieveMode (_ensure_policy_tool_call plan u).tool_calls "orders"
      = true := by
  unfold _ensure_policy_tool_call
  split_ifs with h1 h2
  · exact h
  · exact h
  · exact hasRetrieveMode_append_true plan.tool_calls _ "orders" h

theorem ensure_policy_of_has (plan : Plan) (u : String)
    (h : hasRetrieveMode plan.tool_calls "policy" = true) :
    _ensure_policy_tool_call plan u = plan := by
  unfold _ensure_policy_tool_call
  by_cases hn : _needs_policy_check u = true
  · rw [if_neg (by simp [hn]), if_pos h]
  · rw [if_pos (by simp [Bool.not_eq_true] at hn ⊢; exact hn)]

theorem ensure_policy_has_after (plan : Plan) (u : String)
    (hn : _needs_policy_check u = true) :
    hasRetrieveMode (_ensure_policy_tool_call plan u).tool_calls "policy"
      = true := by
  unfold _ensure_policy_tool_call
  rw [if_neg (by simp [hn])]
  by_cases h : hasRetrieveMode plan.tool_calls "policy" = true
  · rw [if_pos h]; exact h
  · rw [if_neg h]
    exact hasRetrieveMode_appended plan.tool_calls _ "policy" (some 5)

/-- C6: the post-classification repair pass (order-lookup rule then
    policy-check rule, as `ChatAlita.run` applies them) is idempotent:
    running it twice yields exactly the plan of running it once — no
    duplicate orders-mode or policy-mode retrieve call is ever appended,
    for every plan and every utterance. -/
theorem C6_repair_idempotent (plan : Plan) (u : String) :
    applyRepairRules (applyRepairRules plan u) u = applyRepairRules plan u := by
  unfold applyRepairRules
  have hofix : _ensure_order_tool_call
      (_ensure_policy_tool_call (_ensure_order_tool_call plan u) u) u
      = _ensure_policy_tool_call (_ensure_order_tool_call plan u) u := by
    by_cases ho : _needs_order_lookup u = true
    · exact ensure_order_of_has _ u
        (ensure_policy_preserves_orders _ u (ensure_order_has_after plan u ho))
    · unfold _ensure_order_tool_call
      rw [if_pos (by simp [Bool.not_eq_true] at ho ⊢; exact ho)]
  rw [hofix]
  by_cases hp : _needs_policy_check u = true
  · exact ensure_policy_of_has _ u
      (ensure_policy_has_after (_ensure_order_tool_call plan u) u hp)
  · unfold _ensure_policy_tool_call
    rw [if_pos (by simp [Bool.not_eq_true] at hp ⊢; exact hp)]

/-- If searching the reversed list finds nothing, no element satisfies
    the predicate. -/
theorem find?_reverse_none {α : Type} (p : α → Bool) (l : List α)
    (h : l.reverse.find? p = none) : ∀ x ∈ l, p x = false := by
  intro x hx
  have := List.find?_eq_none.mp h x (List.mem_reverse.mpr hx)
  simpa using this

/-- If searching the reversed list finds `m`, then `m` is the last
    element satisfying the predicate: it satisfies it, and everything
    after it does not. -/
theorem find?_reverse_some {α : Type} (p : α → Bool) (l : List α) (m : α)
    (h : l.reverse.find? p = some m) :
    p m = true ∧ ∃ pre post, l = pre ++ m :: post ∧ ∀ x ∈ post, p x = false := by
  induction l with
  | nil => simp at h
  | cons a t ih =>
    rw [List.reverse_cons, List.find?_append] at h
    cases ht : t.reverse.find? p with
    | some m' =>
      rw [ht] at h
      have h' : some m' = some m := h
      injection h' with hm
      subst hm
      obtain ⟨hp, pre, post, hl, hpost⟩ := ih ht
      exact ⟨hp, a :: pre, post, by rw [hl]; rfl, hpost⟩
    | none =>
      rw [ht, Option.none_or] at h
      have hnone : ∀ x ∈ t, p x = false := find?_reverse_none p t ht
      have h1 : List.find? p [a] = some m := h
      cases hpa : p a with
      | false =>
        rw [show List.find? p [a] = none from by simp [hpa]] at h1
        exact Option.noConfusion h1
      | true =>
        rw [show List.find? p [a] = some a from by simp [hpa]] at h1
        injection h1 with hm
        subst hm
        exact ⟨hpa, [], t, rfl, hnone⟩

/-- C7: with memory disabled, the sliding window is exactly the system
    message (index 0) followed by the most recent user-role message when
    one exists, and the system message alone otherwise — for every
    history length and every `max_tokens`. -/
theorem C7_window_no_memory (history : List Message) (max_tokens : Int)
    (sys : Message) (hhead : history.head? = some sys)
    (_hrole : sys.role = "system") :
    (build_sliding_window history false max_tokens = [sys]
      ∧ ∀ m ∈ history, m.role ≠ "user")
    ∨ (∃ u pre post, history = pre ++ u :: post ∧ u.role = "user"
        ∧ (∀ m ∈ post, m.role ≠ "user")
        ∧ build_sliding_window history false max_tokens = [sys, u]) := by
  obtain ⟨rest, rfl⟩ : ∃ rest, history = sys :: rest := by
    cases history with
    | nil => simp at hhead
    | cons a t =>
      rw [List.head?_cons] at hhead
      injection hhead with ha
      exact ⟨t, by rw [ha]⟩
  cases hf : (sys :: rest).reverse.find? (fun m => m.role == "user") with
  | none =>
    left
    constructor
    · show (match (sys :: rest).reverse.find? (fun m => m.role == "user") with
        | some u => [sys] ++ [u]
        | none => [sys]) = [sys]
      rw [hf]
    · intro m hm
      have := find?_reverse_none _ _ hf m hm
      simpa using this
  | some u =>
    right
    obtain ⟨hp, pre, post, hl, hpost⟩ := find?_reverse_some _ _ _ hf
    refine ⟨u, pre, post, hl, by simpa using hp, ?_, ?_⟩
    · intro m hm
      have := hpost m hm
      simpa using this
    · show (match (sys :: rest).reverse.find? (fun m => m.role == "user") with
        | some u => [sys] ++ [u]
        | none => [sys]) = [sys, u]
      rw [hf]
      rfl

/-- C7 witness: a four-message history with two user turns yields exactly
    the system message and the latest user message, even with
    `max_tokens = 0`. -/
theorem C7_window_no_memory_witness :
    (build_sliding_window [⟨"system", "s"⟩, ⟨"user", "a"⟩, ⟨"assistant", "b"⟩,
        ⟨"user", "c"⟩] false 0 = [⟨"system", "s"⟩]
      ∧ ∀ m ∈ ([⟨"system", "s"⟩, ⟨"user", "a"⟩, ⟨"assistant", "b"⟩,
          ⟨"user", "c"⟩] : List Message), m.role ≠ "user")
    ∨ (∃ u pre post,
        ([⟨"system", "s"⟩, ⟨"user", "a"⟩, ⟨"assistant", "b"⟩,
          ⟨"user", "c"⟩] : List Message) = pre ++ u :: post
        ∧ u.role = "user" ∧ (∀ m ∈ post, m.role ≠ "user")
        ∧ build_sliding_window [⟨"system", "s"⟩, ⟨"user", "a"⟩,
            ⟨"assistant", "b"⟩, ⟨"user", "c"⟩] false 0
          = [⟨"system", "s"⟩, u]) :=
  C7_window_no_memory [⟨"system", "s"⟩, ⟨"user", "a"⟩, ⟨"assistant", "b"⟩,
    ⟨"user", "c"⟩] 0 ⟨"system", "s"⟩ rfl rfl

theorem idBlockOk_shape {letter : Char} {block : List Char}
    (h : idBlockOk letter block = true) :
    ∃ d1 d2 d3 d4, block = [letter, d1, d2, d3, d4] ∧
      d1.isDigit = true ∧ d2.isDigit = true ∧ d3.isDigit = true ∧
      d4.isDigit = true := by
  unfold idBlockOk at h
  rcases block with _ | ⟨c, _ | ⟨d1, _ | ⟨d2, _ | ⟨d3, _ | ⟨d4, _ | ⟨e, tail⟩⟩⟩⟩⟩⟩
  · exact Bool.noConfusion h
  · exact Bool.noConfusion h
  · exact Bool.noConfusion h
  · exact Bool.noConfusion h
  · exact Bool.noConfusion h
  · have h' : (c == letter && d1.isDigit && d2.isDigit && d3.isDigit
        && d4.isDigit) = true := h
    simp only [Bool.and_eq_true, beq_iff_eq] at h'
    obtain ⟨⟨⟨⟨hc, hd1⟩, hd2⟩, hd3⟩, hd4⟩ := h'
    subst hc
    exact ⟨d1, d2, d3, d4, rfl, hd1, hd2, hd3, hd4⟩
  · exact Bool.noConfusion h

/-- Inversion of one positional attempt of the id regex. -/
theorem matchIdHere_some {letter : Char} {prev : Option Char}
    {cs m : List Char} (h : matchIdHere letter prev cs = some m) :
    cs = m ++ cs.drop 5 ∧ idBlockOk letter m = true ∧
      boundaryPrev prev = true ∧ rightBoundOk (cs.drop 5) = true := by
  unfold matchIdHere at h
  rcases cs with _ | ⟨c, _ | ⟨d1, _ | ⟨d2, _ | ⟨d3, _ | ⟨d4, rest⟩⟩⟩⟩⟩
  · exact Option.noConfusion h
  · exact Option.noConfusion h
  · exact Option.noConfusion h
  · exact Option.noConfusion h
  · exact Option.noConfusion h
  · have h' : (if (boundaryPrev prev && c == letter && d1.isDigit && d2.isDigit
        && d3.isDigit && d4.isDigit && boundaryNext rest) = true then
        some [c, d1, d2, d3, d4] else (none : Option (List Char))) = some m := h
    by_cases hcond : (boundaryPrev prev && c == letter && d1.isDigit
        && d2.isDigit && d3.isDigit && d4.isDigit && boundaryNext rest) = true
    · rw [if_pos hcond] at h'
      injection h' with hm
      subst hm
      simp only [Bool.and_eq_true, beq_iff_eq] at hcond
      obtain ⟨⟨⟨⟨⟨⟨hb, hc⟩, h1⟩, h2⟩, h3⟩, h4⟩, hr⟩ := hcond
      subst hc
      exact ⟨rfl, by simp [idBlockOk, h1, h2, h3, h4], hb, hr⟩
    · rw [if_neg hcond] at h'
      exact Option.noConfusion h'

theorem leftBoundOk_cons (prev : Option Char) (a : Char) (pre : List Char) :
    leftBoundOk prev (a :: pre) = leftBoundOk (some a) pre := by
  cases pre with
  | nil => rfl
  | cons b t =>
    unfold leftBoundOk
    rw [List.getLast?_cons_cons]
    cases hg : (b :: t).getLast? with
    | none => simp at hg
    | some c => rfl

/-- The scanner finds a match whenever one exists, and the match it
    returns starts no later than any given occurrence. -/
theorem scanId_finds (letter : Char) :
    ∀ (pre : List Char) (prev : Option Char) (block post : List Char),
      idBlockOk letter block = true → leftBoundOk prev pre = true →
      rightBoundOk post = true →
      ∃ pre2 block2 post2,
        pre ++ block ++ post = pre2 ++ block2 ++ post2 ∧
        idBlockOk letter block2 = true ∧ leftBoundOk prev pre2 = true ∧
        rightBoundOk post2 = true ∧ pre2.length ≤ pre.length ∧
        scanId letter prev (pre ++ block ++ post) = some block2 := by
  intro pre
  induction pre with
  | nil =>
    intro prev block post hb hl hr
    obtain ⟨d1, d2, d3, d4, hbs, h1, h2, h3, h4⟩ := idBlockOk_shape hb
    subst hbs
    have hbp : boundaryPrev prev = true := hl
    have hbn : boundaryNext post = true := hr
    have hm : matchIdHere letter prev
        (letter :: d1 :: d2 :: d3 :: d4 :: post)
        = some [letter, d1, d2, d3, d4] := by
      show (if (boundaryPrev prev && letter == letter && d1.isDigit
          && d2.isDigit && d3.isDigit && d4.isDigit && boundaryNext post)
          = true then
          some [letter, d1, d2, d3, d4] else (none : Option (List Char)))
        = some [letter, d1, d2, d3, d4]
      rw [if_pos (by simp [hbp, h1, h2, h3, h4, hbn])]
    refine ⟨[], [letter, d1, d2, d3, d4], post, rfl, hb, hl, hr,
      Nat.le_refl 0, ?_⟩
    show scanId letter prev (letter :: d1 :: d2 :: d3 :: d4 :: post) = _
    rw [scanId]
    rw [show matchIdHere letter prev (letter :: d1 :: d2 :: d3 :: d4 :: post)
      = some [letter, d1, d2, d3, d4] from hm]
  | cons a pre' ih =>
    intro prev block post hb hl hr
    have hl' : leftBoundOk (some a) pre' = true := by
      rw [← leftBoundOk_cons prev]
      exact hl
    cases hm : matchIdHere letter prev (a :: (pre' ++ block ++ post)) with
    | some m =>
      obtain ⟨hcs, hbm, hbp, hrb⟩ := matchIdHere_some hm
      refine ⟨[], m, (a :: (pre' ++ block ++ post)).drop 5, ?_, hbm, hbp,
        hrb, by simp, ?_⟩
      · show (a :: pre') ++ block ++ post = [] ++ (m ++ _)
        simpa [List.cons_append] using hcs
      · show scanId letter prev (a :: (pre' ++ block ++ post)) = some m
        rw [scanId, hm]
    | none =>
      obtain ⟨pre2', block2, post2, hdec, hb2, hl2, hr2, hlen, hscan⟩ :=
        ih (some a) block post hb hl' hr
      refine ⟨a :: pre2', block2, post2, ?_, hb2, ?_, hr2, ?_, ?_⟩
      · simp only [List.cons_append]
        rw [hdec]
      · rw [leftBoundOk_cons]
        exact hl2
      · simpa using Nat.succ_le_succ hlen
      · show scanId letter prev (a :: (pre' ++ block ++ post)) = some block2
        rw [scanId, hm]
        exact hscan

/-- The generic extractor satisfies the leftmost-extraction contract. -/
theorem extractId_leftmost (letter : Char) :
    LeftmostExtractSpec letter (extractId letter) := by
  intro text pre block post hocc
  obtain ⟨hdec, hb, hl, hr⟩ := hocc
  obtain ⟨pre2, block2, post2, hdec2, hb2, hl2, hr2, hlen, hscan⟩ :=
    scanId_finds letter pre none block post hb hl hr
  refine ⟨pre2, block2, post2, ⟨?_, hb2, hl2, hr2⟩, hlen, ?_⟩
  · rw [hdec, hdec2]
  · unfold extractId
    rw [hdec, hscan]
    rfl

/-- C8 counterexample: the text `"o1111 o2222"` contains the well-formed
    order id `o2222`, but `_extract_order_id` returns `"O1111"`, not
    `"O2222"` — extraction is not independent of the surrounding text
    when that text contains an earlier id. -/
theorem C8_counterexample :
    IdOccurs 'o' "o1111 o2222" ['o', '1', '1', '1', '1', ' ']
      ['o', '2', '2', '2', '2'] []
    ∧ strOf (['o', '2', '2', '2', '2'].map Char.toUpper) = "O2222"
    ∧ _extract_order_id "o1111 o2222" = some "O1111"
    ∧ "O1111" ≠ "O2222" := by
  refine ⟨⟨by decide, by decide, by decide, by decide⟩, by decide, by decide,
    by decide⟩

/-- C8 (amended): each extraction function returns, uppercased, the
    leftmost well-formed id of its letter occurring in the text: whenever
    the text contains such an id, extraction succeeds and yields an
    occurrence starting no later than it (`LeftmostExtractSpec`). -/
theorem C8_extraction_leftmost :
    LeftmostExtractSpec 'o' _extract_order_id
    ∧ LeftmostExtractSpec 'p' _extract_product_id
    ∧ LeftmostExtractSpec 'c' _extract_customer_id :=
  ⟨extractId_leftmost 'o', extractId_leftmost 'p', extractId_leftmost 'c'⟩

/-- C8 witness: on `"see O1234 here"` the contract instantiates and the
    extractor indeed returns `"O1234"` uppercased. -/
theorem C8_extraction_leftmost_witness :
    (∃ pre2 block2 post2,
      IdOccurs 'o' "see O1234 here" pre2 block2 post2
      ∧ pre2.length ≤ (['s', 'e', 'e', ' '] : List Char).length
      ∧ _extract_order_id "see O1234 here"
          = some (strOf (block2.map Char.toUpper)))
    ∧ _extract_order_id "see O1234 here" = some "O1234" :=
  ⟨C8_extraction_leftmost.1 "see O1234 here" ['s', 'e', 'e', ' ']
    ['o', '1', '2', '3', '4'] [' ', 'h', 'e', 'r', 'e']
    ⟨by decide, by decide, by decide, by decide⟩, by decide⟩

/-- With a truthy bound customer, `_matches_current_customer` accepts a
    value only when it is a non-empty string normalizing to the bound id. -/
theorem matchesCurrent_true {b v : String} (hb : b ≠ "")
    (h : matchesCurrentCustomer (some b) (some v) = true) :
    v ≠ "" ∧ normalize_query v = normalize_query b := by
  have h' : (if b = "" then true else
      (if v = "" then false
        else normalize_query v == normalize_query b)) = true := h
  rw [if_neg hb] at h'
  by_cases hv : v = ""
  · rw [if_pos hv] at h'
    exact Bool.noConfusion h'
  · rw [if_neg hv] at h'
    exact ⟨hv, by simpa [beq_iff_eq] using h'⟩

theorem matchesCurrent_true_opt {b : String} {ov : Option String}
    (hb : b ≠ "") (h : matchesCurrentCustomer (some b) ov = true) :
    ∃ v, ov = some v ∧ v ≠ "" ∧ normalize_query v = normalize_query b := by
  cases ov with
  | none =>
    have h' : (if b = "" then true else false) = true := h
    rw [if_neg hb] at h'
    exact Bool.noConfusion h'
  | some v =>
    obtain ⟨hv, hn⟩ := matchesCurrent_true hb h
    exact ⟨v, rfl, hv, hn⟩

/-- C10: with a customer bound to the guarded order tool, every record
    its search returns — on the customer-id, order-id and vector paths
    alike — carries a non-empty `customer_id` normalizing (lowercased,
    trimmed) to the bound id; and an order-id query whose matching store
    records all belong to other customers yields the empty result. -/
theorem C10_customer_scoping (b : String) (hb : b ≠ "") (store : List Order)
    (vec : String → Int → List Order) (query : String) (k : Int) :
    (∀ o ∈ guardedOrdersSearch (some b) store vec query k,
      ∃ cv, o.customer_id = some cv ∧ cv ≠ "" ∧
        normalize_query cv = normalize_query b)
    ∧ (isIdToken 'o' (normalize_query query) = true →
      (∀ o ∈ store,
        normalize_query (o.order_id.getD "") = normalize_query query →
        matchesCurrentCustomer (some b) o.customer_id = false) →
      guardedOrdersSearch (some b) store vec query k = []) := by
  have hpt : pyTruthy (some b) = true := by simp [pyTruthy, hb]
  constructor
  · intro o ho
    simp only [guardedOrdersSearch] at ho
    by_cases hg : ((_extract_customer_id query).isSome
        && !matchesCurrentCustomer (some b) (_extract_customer_id query)) = true
    · rw [if_pos hg] at ho
      simp at ho
    · rw [if_neg hg] at ho
      by_cases hc : isIdToken 'c' (normalize_query query) = true
      · rw [if_pos hc] at ho
        by_cases hmc : (!matchesCurrentCustomer (some b)
            (some (normalize_query query))) = true
        · rw [if_pos hmc] at ho
          simp at ho
        · rw [if_neg hmc] at ho
          have hmct : matchesCurrentCustomer (some b)
              (some (normalize_query query)) = true := by
            simpa using hmc
          unfold takeInt at ho
          have ho2 := List.mem_of_mem_take ho
          have hpred := (List.mem_filter.mp ho2).2
          have hEq : normalize_query (o.customer_id.getD "")
              = normalize_query query := by simpa [beq_iff_eq] using hpred
          obtain ⟨hNne, hNb⟩ := matchesCurrent_true hb hmct
          have hNfix : normalize_query (normalize_query query)
              = normalize_query query :=
            normalize_query_idToken hc (by decide) (by decide)
          have hQne : normalize_query query ≠ "" := isIdToken_ne_empty hc
          cases hcv : o.customer_id with
          | none =>
            rw [hcv] at hEq
            rw [show ((none : Option String).getD "") = "" from rfl] at hEq
            rw [show normalize_query "" = "" from by decide] at hEq
            exact absurd hEq.symm hQne
          | some cv =>
            rw [hcv] at hEq
            rw [show ((some cv).getD "") = cv from rfl] at hEq
            refine ⟨cv, rfl, ?_, ?_⟩
            · intro hcv0
              rw [hcv0] at hEq
              rw [show normalize_query "" = "" from by decide] at hEq
              exact absurd hEq.symm hQne
            · rw [hEq, ← hNfix]
              exact hNb
      · rw [if_neg hc] at ho
        by_cases hoid : isIdToken 'o' (normalize_query query) = true
        · rw [if_pos hoid] at ho
          rw [if_pos hpt] at ho
          unfold takeInt at ho
          have ho2 := List.mem_of_mem_take ho
          have hpred := (List.mem_filter.mp ho2).2
          exact matchesCurrent_true_opt hb hpred
        · rw [if_neg hoid] at ho
          rw [if_pos hpt] at ho
          have hpred := (List.mem_filter.mp ho).2
          exact matchesCurrent_true_opt hb hpred
  · intro hoid hall
    simp only [guardedOrdersSearch]
    by_cases hg : ((_extract_customer_id query).isSome
        && !matchesCurrentCustomer (some b) (_extract_customer_id query)) = true
    · rw [if_pos hg]
    · rw [if_neg hg]
      have hc : isIdToken 'c' (normalize_query query) = false := by
        cases hcc : isIdToken 'c' (normalize_query query)
        · rfl
        · exact absurd (isIdToken_letter_unique hcc hoid) (by decide)
      rw [if_neg (by simp [hc]), if_pos hoid, if_pos hpt]
      have hnil : (store.filter (fun o =>
          normalize_query (o.order_id.getD "") == normalize_query query)).filter
          (fun o => matchesCurrentCustomer (some b) o.customer_id) = [] := by
        rw [List.filter_eq_nil_iff]
        intro o hmem
        have h1 := List.mem_filter.mp hmem
        have h2 := hall o h1.1 (by simpa [beq_iff_eq] using h1.2)
        simp [h2]
      rw [hnil]
      simp [takeInt]

/-- C10 witness: with bound customer C1001, querying another customer's
    order id `o0009` returns the empty list, not that order. -/
theorem C10_customer_scoping_witness :
    guardedOrdersSearch (some "C1001")
      [⟨some "O0009", some "C2002", some "Shipped", []⟩]
      (fun _ _ => []) "o0009" 5 = [] :=
  (C10_customer_scoping "C1001" (by decide)
    [⟨some "O0009", some "C2002", some "Shipped", []⟩]
    (fun _ _ => []) "o0009" 5).2 (by decide) (by decide)

end Glem
